import Mathlib

/-!
Shallow embedding of the Swiss-stage pairing/probability engine
(`src/models.py`, `src/swiss_engine.py`) and proofs about it.

Modelling conventions:
* Python `float` probabilities are modelled as `ℚ` (exact rationals).
* Python `set`/`dict` values are modelled as lists; a Python `set` of teams
  is modelled by `List.eraseDups` of the input list (Python `set(teams)`
  deduplicates by dataclass equality), and the unspecified iteration order
  of a Python set is rendered as the (deduplicated) list order.  All counting
  facts proved below are independent of that order.
* Mutation is modelled functionally: `copy.deepcopy` of a value is the value
  itself in a value semantics, and in-place field updates become functional
  record updates.  A separate heap model (near the end of the definitions)
  makes object identity and `deepcopy` allocation explicit in order to state
  the "never mutates the caller's state" frame property.
-/

set_option maxHeartbeats 1000000

namespace Swiss

/-- Embeds `models.Team` (`src/models.py`).  `opponents_played` (a Python
`set[str]`) is modelled as a list used only through membership, and
`match_history` is the ordered list of `(opponent, won?)` entries where
`none` marks a pending match. -/
structure Team where
  name : String
  wins : Nat
  losses : Nat
  opponents_played : List String
  match_history : List (String × Option Bool)
deriving DecidableEq

/-- `Team.record`: the record string `"wins-losses"`. -/
def Team.record (t : Team) : String :=
  toString t.wins ++ "-" ++ toString t.losses

/-- `Team.is_qualified`: `wins >= 3`. -/
def Team.is_qualified (t : Team) : Bool := 3 ≤ t.wins

/-- `Team.is_eliminated`: `losses >= 3`. -/
def Team.is_eliminated (t : Team) : Bool := 3 ≤ t.losses

/-- `Team.is_active`: neither qualified nor eliminated. -/
def Team.is_active (t : Team) : Bool := !t.is_qualified && !t.is_eliminated

/-- `Team.can_play_against`: not the same name, and the opponent has not
already been played.  Note the check is directional: it inspects only
`t.opponents_played`, not `other.opponents_played`. -/
def Team.can_play_against (t other : Team) : Bool :=
  if t.name = other.name then false
  else if other.name ∈ t.opponents_played then false
  else true

/-- `Team.add_match_result` (`src/models.py`): a decided result records the
opponent in `opponents_played` (set add, modelled with a membership guard),
every result is appended to `match_history`, and the win/loss counters are
bumped for decided results. -/
def Team.add_match_result (t : Team) (opponent : String) (won : Option Bool) : Team :=
  let opps := match won with
    | some _ =>
        if opponent ∈ t.opponents_played then t.opponents_played
        else t.opponents_played ++ [opponent]
    | none => t.opponents_played
  { t with
    opponents_played := opps
    match_history := t.match_history ++ [(opponent, won)]
    wins := if won = some true then t.wins + 1 else t.wins
    losses := if won = some false then t.losses + 1 else t.losses }

/-- Embeds `models.Match`. -/
structure Match where
  team1 : String
  team2 : String
  round_number : Nat
  winner : Option String := none
  match_type : String := "BO1"
deriving DecidableEq

/-- Embeds `models.SwissStage`. -/
structure SwissStage where
  teams : List Team
  «matches» : List Match := []
  current_round : Nat := 1
deriving DecidableEq

/-- `SwissStage.get_teams_by_record`: active teams with the given record. -/
def SwissStage.get_teams_by_record (s : SwissStage) (w l : Nat) : List Team :=
  s.teams.filter (fun t => decide (t.wins = w) && decide (t.losses = l) && t.is_active)

/-- `SwissStage.get_team_by_name`: first team with the given name, if any. -/
def SwissStage.get_team_by_name (s : SwissStage) (n : String) : Option Team :=
  s.teams.find? (fun t => t.name = n)

/-- `SwissStage.get_active_teams`. -/
def SwissStage.get_active_teams (s : SwissStage) : List Team :=
  s.teams.filter (fun t => t.is_active)

/-! ### Pairing generator (`SwissDrawEngine`, `src/swiss_engine.py` lines 19-84) -/

/-- `SwissDrawEngine.get_possible_matchups`: all index-ordered pairs `(t, o)`
with `t` before `o` such that `t.can_play_against o`.  (Computed by
`generate_valid_pairings` in the source but not used by its backtracking.) -/
def get_possible_matchups : List Team → List (Team × Team)
  | [] => []
  | t :: rest =>
      (rest.filter (fun o => t.can_play_against o)).map (fun o => (t, o)) ++
        get_possible_matchups rest

/-- `SwissDrawEngine.is_valid_pairing`: every remaining team has at least one
legal partner among the remaining teams.  (The Python method also receives the
partial pair list but ignores it.) -/
def is_valid_pairing (remaining : List Team) : Bool :=
  remaining.all (fun t => remaining.any (fun o => decide (o ≠ t) && t.can_play_against o))

/-- The recursive `backtrack` closure of `generate_valid_pairings`.
The Python `remaining` set is rendered as a duplicate-free list whose order
stands for the set's iteration order; `next(iter(remaining))` is its head and
`remaining - {team, other}` is a filter.  The extra `Nat` argument is
structural fuel bounding the recursion depth; `generate_valid_pairings`
supplies the number of distinct teams, which always suffices because every
recursive call strictly shrinks the remaining list (the lemmas below carry
this invariant, under which the fuel-exhausted branch is unreachable). -/
def backtrack : Nat → List Team → List (List (Team × Team))
  | _, [] => [[]]
  | 0, _ :: _ => []
  | fuel + 1, t :: rest =>
      ((t :: rest).map (fun o =>
        if decide (o ≠ t) && t.can_play_against o then
          let rem := (t :: rest).filter (fun x => decide (x ≠ t) && decide (x ≠ o))
          if is_valid_pairing rem then
            (backtrack fuel rem).map (fun sol => (t, o) :: sol)
          else []
        else [])).flatten

/-- Worker for `set_list`, carrying the already-seen elements. -/
def set_list_go : List Team → List Team → List Team
  | [], _ => []
  | t :: rest, seen =>
      if t ∈ seen then set_list_go rest seen
      else t :: set_list_go rest (t :: seen)

/-- `set(teams)`: deduplication by (dataclass) equality.  First-occurrence
order stands for the Python set's unspecified iteration order; every
counting fact proved below is independent of this choice. -/
def set_list (teams : List Team) : List Team := set_list_go teams []

/-- `SwissDrawEngine.generate_valid_pairings`: `[[]]` on the empty input,
otherwise the backtracking enumeration over `set(teams)`. -/
def generate_valid_pairings (teams : List Team) : List (List (Team × Team)) :=
  if teams = [] then [[]]
  else backtrack (set_list teams).length (set_list teams)

/-! ### ProbabilityCalculator helpers (`src/swiss_engine.py` lines 129-389) -/

/-- Code-point lexicographic `<` on char lists (Python's string order). -/
def chars_lt : List Char → List Char → Bool
  | [], [] => false
  | [], _ :: _ => true
  | _ :: _, [] => false
  | c :: cs, d :: ds =>
      if c.toNat < d.toNat then true
      else if d.toNat < c.toNat then false
      else chars_lt cs ds

/-- Python `s1 < s2` on strings, over the underlying char lists. -/
def str_lt (a b : String) : Bool := chars_lt a.data b.data

/-- `tuple(sorted([a, b]))` on two strings: the lexicographically ordered
pair (the first component kept first on ties, as the stable sort does). -/
def sorted_pair (a b : String) : String × String :=
  if str_lt b a then (b, a) else (a, b)

/-- Does the first char list start with the second? -/
def chars_starts_with : List Char → List Char → Bool
  | _, [] => true
  | [], _ :: _ => false
  | c :: cs, d :: ds => decide (c = d) && chars_starts_with cs ds

/-- Python `s.startswith(pat)`. -/
def str_starts_with (s pat : String) : Bool :=
  chars_starts_with s.data pat.data

/-- Helper for substring containment: does `pat` occur in the char list? -/
def chars_contains_sub : List Char → List Char → Bool
  | [], pat => pat.isEmpty
  | c :: cs, pat => chars_starts_with (c :: cs) pat || chars_contains_sub cs pat

/-- One entry of `_identify_pending_matches`'s result list. -/
structure PendingMatch where
  team1 : String
  team2 : String
  team1_record : String
  team2_record : String
deriving DecidableEq

/-- Inner loop of `_identify_pending_matches` over one team's match history,
threading the `processed_pairs` accumulator. -/
def pending_scan_entries (stage : SwissStage) (t : Team) :
    List (String × Option Bool) → List (String × String) →
      List PendingMatch × List (String × String)
  | [], processed => ([], processed)
  | (opponent_name, result) :: rest, processed =>
      if result = none then
        let pair := sorted_pair t.name opponent_name
        if pair ∈ processed then pending_scan_entries stage t rest processed
        else
          match stage.get_team_by_name opponent_name with
          | some opponent =>
              let next := pending_scan_entries stage t rest (processed ++ [pair])
              (⟨t.name, opponent_name, t.record, opponent.record⟩ :: next.1, next.2)
          | none => pending_scan_entries stage t rest processed
      else pending_scan_entries stage t rest processed

/-- Outer loop of `_identify_pending_matches` over all teams. -/
def pending_scan_teams (stage : SwissStage) :
    List Team → List (String × String) → List PendingMatch
  | [], _ => []
  | t :: rest, processed =>
      let scanned := pending_scan_entries stage t t.match_history processed
      scanned.1 ++ pending_scan_teams stage rest scanned.2

/-- `_identify_pending_matches`: every undecided (`None`) history entry whose
opponent exists in the stage, deduplicated by the sorted name pair. -/
def identify_pending_matches (stage : SwissStage) : List PendingMatch :=
  pending_scan_teams stage stage.teams []

/-- The `pending_match` sub-dict of `_find_path_to_target_group`. -/
structure PendingInfo where
  opponent : String
  opponent_record : String
deriving DecidableEq

/-- The successful result of `_find_path_to_target_group`. -/
structure TargetPath where
  possible : Bool
  wins_needed : Int
  losses_needed : Int
  pending_match : Option PendingInfo
deriving DecidableEq

/-- `_find_path_to_target_group`: zero-step success when already at the
target record; otherwise `none` when the team or the target is already
decided, when a needed count is negative, or when more than one further
result is needed; else a one/zero-step path with the first pending
history entry (if its opponent exists). -/
def find_path_to_target_group (stage : SwissStage) (team : Team)
    (target_w target_l : Nat) : Option TargetPath :=
  if team.wins = target_w ∧ team.losses = target_l then
    some ⟨true, 0, 0, none⟩
  else if 3 ≤ team.wins ∨ 3 ≤ team.losses then none
  else if 3 ≤ target_w ∨ 3 ≤ target_l then none
  else
    let wins_needed : Int := (target_w : Int) - (team.wins : Int)
    let losses_needed : Int := (target_l : Int) - (team.losses : Int)
    if wins_needed < 0 ∨ losses_needed < 0 then none
    else if 1 < wins_needed + losses_needed then none
    else
      let pending_match : Option PendingInfo :=
        match team.match_history.find? (fun e => e.2 = none) with
        | some e =>
            match stage.get_team_by_name e.1 with
            | some opponent => some ⟨e.1, opponent.record⟩
            | none => none
        | none => none
      some ⟨true, wins_needed, losses_needed, pending_match⟩

/-- `_describe_path`: the Chinese step-description string (its `team_name`
parameter is unused in the source as well). -/
def describe_path (current_w current_l target_w target_l : Nat)
    (_team_name : String) : String :=
  let wins_needed : Int := (target_w : Int) - (current_w : Int)
  let losses_needed : Int := (target_l : Int) - (current_l : Int)
  let target_str := toString target_w ++ "-" ++ toString target_l
  if wins_needed = 0 ∧ losses_needed = 0 then
    "已在 " ++ target_str ++ " 组"
  else
    let parts : List String :=
      (if 0 < wins_needed then ["赢 " ++ toString wins_needed ++ " 场"] else []) ++
        (if 0 < losses_needed then ["输 " ++ toString losses_needed ++ " 场"] else [])
    String.intercalate " 且 " parts ++ " 到达 " ++ target_str ++ " 组"

/-- One raw entry appended by `_identify_impact_matches` before deduplication. -/
structure ImpactEntry where
  «match» : PendingMatch
  impact_type : String
  team_affected : String
  result_needed : String
deriving DecidableEq

/-- Body of `_identify_impact_matches`'s loop for one pending match: the
excluded-pair check, the two lookups, and the four conditional appends (the
`team2` appends guard against an entry already recorded for the same match
and affected team). -/
def impact_entries_step (stage : SwissStage) (target_w target_l : Nat)
    (exclude : List (String × String)) (acc : List ImpactEntry)
    (m : PendingMatch) : List ImpactEntry :=
  if sorted_pair m.team1 m.team2 ∈ exclude then acc
  else
    match stage.get_team_by_name m.team1, stage.get_team_by_name m.team2 with
    | some team1, some team2 =>
        let target_str := toString target_w ++ "-" ++ toString target_l
        let acc1 :=
          if team1.wins + 1 = target_w ∧ team1.losses = target_l then
            acc ++ [⟨m, team1.name ++ " 赢则进入 " ++ target_str, team1.name, "team1_win"⟩]
          else acc
        let acc2 :=
          if team1.wins = target_w ∧ team1.losses + 1 = target_l then
            acc1 ++ [⟨m, team1.name ++ " 输则进入 " ++ target_str, team1.name, "team1_lose"⟩]
          else acc1
        let acc3 :=
          if team2.wins + 1 = target_w ∧ team2.losses = target_l then
            if acc2.any (fun im => decide (im.«match» = m) && decide (im.team_affected = team2.name)) then acc2
            else acc2 ++ [⟨m, team2.name ++ " 赢则进入 " ++ target_str, team2.name, "team2_win"⟩]
          else acc2
        let acc4 :=
          if team2.wins = target_w ∧ team2.losses + 1 = target_l then
            if acc3.any (fun im => decide (im.«match» = m) && decide (im.team_affected = team2.name)) then acc3
            else acc3 ++ [⟨m, team2.name ++ " 输则进入 " ++ target_str, team2.name, "team2_lose"⟩]
          else acc3
        acc4
    | _, _ => acc

/-- The final `unique_matches` deduplication of `_identify_impact_matches`:
keep the first entry per `(team1, team2)` key, in insertion order. -/
def dedup_by_match_key : List ImpactEntry → List (String × String) → List PendingMatch
  | [], _ => []
  | im :: rest, seen =>
      let key := (im.«match».team1, im.«match».team2)
      if key ∈ seen then dedup_by_match_key rest seen
      else im.«match» :: dedup_by_match_key rest (seen ++ [key])

/-- `_identify_impact_matches`: pending matches (outside `exclude`) whose
outcome would move one of their teams into the target record group. -/
def identify_impact_matches (stage : SwissStage) (target_w target_l : Nat)
    (exclude : List (String × String)) : List PendingMatch :=
  let entries :=
    (identify_pending_matches stage).foldl
      (impact_entries_step stage target_w target_l exclude) []
  dedup_by_match_key entries []

/-- Replace the first team with the given name (Python mutates the object
returned by `get_team_by_name`, which is the first name match). -/
def update_first_team : List Team → String → (Team → Team) → List Team
  | [], _, _ => []
  | t :: rest, n, f =>
      if t.name = n then f t :: rest else t :: update_first_team rest n f

/-- One iteration of `_simulate_group_with_results`'s loop: if both named
teams exist, apply the `'team1_win'`/`'team2_win'` counter updates (any other
result string changes nothing). -/
def apply_match_result_entry (st : SwissStage) (e : (String × String) × String) :
    SwissStage :=
  match st.get_team_by_name e.1.1, st.get_team_by_name e.1.2 with
  | some _, some _ =>
      if e.2 = "team1_win" then
        { st with teams := (update_first_team (update_first_team st.teams e.1.1
            (fun t => { t with wins := t.wins + 1 })) e.1.2
            (fun t => { t with losses := t.losses + 1 })) }
      else if e.2 = "team2_win" then
        { st with teams := (update_first_team (update_first_team st.teams e.1.1
            (fun t => { t with losses := t.losses + 1 })) e.1.2
            (fun t => { t with wins := t.wins + 1 })) }
      else st
  | _, _ => st

/-- The full result-application loop of `_simulate_group_with_results`,
acting on the deep copy (modelled as a functional update of the value). -/
def apply_match_results (st : SwissStage)
    (match_results : List ((String × String) × String)) : SwissStage :=
  match_results.foldl apply_match_result_entry st

/-- `_simulate_group_with_results`: deep-copy the stage (value copy), apply
the given match results, and read off the target record group. -/
def simulate_group_with_results (stage : SwissStage) (target_w target_l : Nat)
    (match_results : List ((String × String) × String)) : List Team :=
  (apply_match_results stage match_results).get_teams_by_record target_w target_l

/-- The result dict of `_calculate_pairing_probability`. -/
structure PairingStats where
  probability : ℚ
  total_pairings : Nat
  favorable_pairings : Nat
  teams : List String
deriving DecidableEq

/-- The source's inner loop over one pairing with its `break`: does the
pairing contain the pair `{team1_name, team2_name}` (in either orientation)? -/
def pairing_contains_pair (team1_name team2_name : String)
    (pairing : List (Team × Team)) : Bool :=
  pairing.any (fun pr =>
    (decide (pr.1.name = team1_name) && decide (pr.2.name = team2_name)) ||
      (decide (pr.1.name = team2_name) && decide (pr.2.name = team1_name)))

/-- `_calculate_pairing_probability` (`src/swiss_engine.py` lines 339-389):
groups of fewer than two teams short-circuit to zero, an empty enumeration
reports zero, and otherwise the probability is the favorable count over the
total count (float division modelled as exact `ℚ` division). -/
def calculate_pairing_probability (team1_name team2_name : String)
    (teams_in_group : List Team) : PairingStats :=
  if teams_in_group.length < 2 then ⟨0, 0, 0, []⟩
  else
    let all_pairings := generate_valid_pairings teams_in_group
    if all_pairings = [] then ⟨0, 0, 0, teams_in_group.map (fun t => t.name)⟩
    else
      let target_pairing_count :=
        all_pairings.countP (fun p => pairing_contains_pair team1_name team2_name p)
      ⟨(target_pairing_count : ℚ) / (all_pairings.length : ℚ),
        all_pairings.length, target_pairing_count,
        teams_in_group.map (fun t => t.name)⟩

/-! ### Interactive cross-group calculation
(`calculate_cross_group_probability_interactive`, lines 391-571) -/

/-- One entry of `result['prerequisites']`. -/
structure Prereq where
  team : String
  current_record : String
  needs : String
  pending_match : Option PendingInfo
deriving DecidableEq

/-- One entry of `result['scenarios']` (`match_results` is absent from the
single scenario of the no-impact-match branch, hence the `Option`). -/
structure Scenario where
  description : String
  probability : ℚ
  new_teams : List String
  pairing_stats : PairingStats
  match_results : Option (List (PendingMatch × String))
deriving DecidableEq

/-- The result dict of `calculate_cross_group_probability_interactive`. -/
structure CrossResult where
  need_input : Bool
  prerequisites : List Prereq
  impact_matches : List PendingMatch
  scenarios : List Scenario
  weighted_probability : ℚ
  explanation : String
deriving DecidableEq

/-- The candidate target records scanned by the source, in order. -/
def possible_records : List (Nat × Nat) := [(1, 1), (2, 1), (1, 2), (2, 2)]

/-- The target-record search loop (lines 427-456): the first candidate record
reachable by both teams that is not skipped and not a trivial
both-already-there record, together with the two prerequisite entries. -/
def find_target_record (stage : SwissStage) (team1 team2 : Team)
    (team1_name team2_name : String) (skip_current_record : Bool) :
    List (Nat × Nat) → Option ((Nat × Nat) × List Prereq)
  | [] => none
  | (target_w, target_l) :: rest =>
      if skip_current_record && decide (team1.wins = target_w) &&
          decide (team1.losses = target_l) then
        find_target_record stage team1 team2 team1_name team2_name skip_current_record rest
      else
        match find_path_to_target_group stage team1 target_w target_l,
            find_path_to_target_group stage team2 target_w target_l with
        | some path1, some path2 =>
            if path1.possible && path2.possible then
              if path1.wins_needed = 0 ∧ path1.losses_needed = 0 ∧
                  path2.wins_needed = 0 ∧ path2.losses_needed = 0 then
                find_target_record stage team1 team2 team1_name team2_name
                  skip_current_record rest
              else
                some ((target_w, target_l),
                  [⟨team1_name, team1.record,
                      describe_path team1.wins team1.losses target_w target_l team1_name,
                      path1.pending_match⟩,
                    ⟨team2_name, team2.record,
                      describe_path team2.wins team2.losses target_w target_l team2_name,
                      path2.pending_match⟩])
            else
              find_target_record stage team1 team2 team1_name team2_name
                skip_current_record rest
        | _, _ =>
            find_target_record stage team1 team2 team1_name team2_name
              skip_current_record rest

/-- Python's `in` on strings: substring containment. -/
def str_contains (s pat : String) : Bool := chars_contains_sub s.data pat.data

/-- Python `dict` insertion: overwrite in place when the key is present,
otherwise append. -/
def insert_assoc : List ((String × String) × String) → (String × String) → String →
    List ((String × String) × String)
  | [], k, v => [(k, v)]
  | (k0, v0) :: rest, k, v =>
      if k0 = k then (k, v) :: rest else (k0, v0) :: insert_assoc rest k v

/-- `win_probabilities.get(prob_key, 0.5)`: assoc-list lookup with the
source's implicit default of `0.5`. -/
def lookup_prob (wp : List ((String × String) × ℚ)) (k : String × String) : ℚ :=
  match wp.find? (fun e => e.1 = k) with
  | some e => e.2
  | none => 1 / 2

/-- Prerequisite results in the no-impact-match branch (lines 485-495):
keyed on `(team, opponent)`, decided by whether `needs` starts with
`赢` (win) or `输` (lose). -/
def prereq_results_direct (prereqs : List Prereq) : List ((String × String) × String) :=
  prereqs.foldl
    (fun mr prereq =>
      match prereq.pending_match with
      | some pm =>
          let match_key := (prereq.team, pm.opponent)
          if str_starts_with prereq.needs "赢" then insert_assoc mr match_key "team1_win"
          else if str_starts_with prereq.needs "输" then insert_assoc mr match_key "team2_win"
          else mr
      | none => mr)
    []

/-- Prerequisite results in the impact-match branch (lines 523-537).  The
source's first two conditions test for keys (`'wins_needed' in prereq`) that
the prerequisite dict never has, so they are dead and only the
substring-based `elif` chain remains. -/
def prereq_results_combo (prereqs : List Prereq) : List ((String × String) × String) :=
  prereqs.foldl
    (fun mr prereq =>
      match prereq.pending_match with
      | some pm =>
          let match_key := (prereq.team, pm.opponent)
          if str_contains prereq.needs "赢" then insert_assoc mr match_key "team1_win"
          else if str_contains prereq.needs "输" then insert_assoc mr match_key "team2_win"
          else mr
      | none => mr)
    []

/-- `itertools.product` over the per-match outcome lists
`[(match, 'team1_win'), (match, 'team2_win')]`, in the source's order
(first match varies slowest). -/
def outcome_combos : List PendingMatch → List (List (PendingMatch × String))
  | [] => [[]]
  | m :: rest =>
      ((outcome_combos rest).map (fun c => (m, "team1_win") :: c)) ++
        ((outcome_combos rest).map (fun c => (m, "team2_win") :: c))

/-- The occurrence probability accumulated over one outcome combination:
the product of `p` or `1 - p` per impact match, with `p` looked up under the
sorted name pair. -/
def combo_prob (wp : List ((String × String) × ℚ))
    (combo : List (PendingMatch × String)) : ℚ :=
  combo.foldl
    (fun p mo =>
      let prob_key := sorted_pair mo.1.team1 mo.1.team2
      if mo.2 = "team1_win" then p * lookup_prob wp prob_key
      else p * (1 - lookup_prob wp prob_key))
    1

/-- The match-result dict for one outcome combination: prerequisite results
first, then the combination's outcomes keyed on `(team1, team2)`. -/
def combo_results (prereqs : List Prereq) (combo : List (PendingMatch × String)) :
    List ((String × String) × String) :=
  combo.foldl (fun mr mo => insert_assoc mr (mo.1.team1, mo.1.team2) mo.2)
    (prereq_results_combo prereqs)

/-- One scenario of the impact-match branch (lines 518-567); `idx` is the
number of scenarios already recorded. -/
def scenario_for_combo (stage : SwissStage) (team1_name team2_name : String)
    (target_w target_l : Nat) (prereqs : List Prereq)
    (wp : List ((String × String) × ℚ)) (idx : Nat)
    (combo : List (PendingMatch × String)) : Scenario :=
  let mr := combo_results prereqs combo
  let scenario_prob := combo_prob wp combo
  let teams_in_group := simulate_group_with_results stage target_w target_l mr
  let pairing_stats := calculate_pairing_probability team1_name team2_name teams_in_group
  let new_teams := (teams_in_group.map (fun t => t.name)).filter
    (fun n => decide (n ≠ team1_name) && decide (n ≠ team2_name))
  ⟨"情况 " ++ toString (idx + 1), scenario_prob, new_teams, pairing_stats, some combo⟩

/-- The `exclude_matches` accumulation of
`calculate_cross_group_probability_interactive` (lines 465-468): the sorted
name pairs of the prerequisites' own pending matches. -/
def prereq_excludes (prereqs : List Prereq) : List (String × String) :=
  prereqs.foldl
    (fun ex prereq =>
      match prereq.pending_match with
      | some pm => ex ++ [sorted_pair prereq.team pm.opponent]
      | none => ex)
    []

/-- The team lookups followed by the target-record search of
`calculate_cross_group_probability_interactive` (lines 408-441). -/
def cross_target (stage : SwissStage) (team1_name team2_name : String)
    (skip_current_record : Bool) : Option ((Nat × Nat) × List Prereq) :=
  match stage.get_team_by_name team1_name, stage.get_team_by_name team2_name with
  | some team1, some team2 =>
      find_target_record stage team1 team2 team1_name team2_name skip_current_record
        possible_records
  | _, _ => none

/-- The body of `calculate_cross_group_probability_interactive` once a
common target record and the prerequisites are found (lines 462-571): a
`None` probability dict sets `need_input`; otherwise the no-impact branch
produces the single trivial scenario, and the impact branch maps over all
outcome combinations (the source's scenario append loop and running
weighted sum are rendered as an indexed map and a sum over the list). -/
def cross_with_target (stage : SwissStage) (team1_name team2_name : String)
    (win_probabilities : Option (List ((String × String) × ℚ)))
    (target_w target_l : Nat) (prereqs : List Prereq) : CrossResult :=
  let result0 : CrossResult := ⟨false, [], [], [], 0, ""⟩
  let exclude_matches := prereq_excludes prereqs
  let impact_matches := identify_impact_matches stage target_w target_l exclude_matches
  let resultP := { result0 with
    prerequisites := prereqs, impact_matches := impact_matches }
  match win_probabilities with
  | none => { resultP with need_input := true }
  | some wp =>
      if impact_matches = [] then
        let mr := prereq_results_direct prereqs
        let teams_in_group := simulate_group_with_results stage target_w target_l mr
        let pairing_stats :=
          calculate_pairing_probability team1_name team2_name teams_in_group
        let new_teams := (teams_in_group.map (fun t => t.name)).filter
          (fun n => decide (n ≠ team1_name) && decide (n ≠ team2_name))
        { resultP with
          scenarios := [⟨"唯一情况", 1, new_teams, pairing_stats, none⟩]
          weighted_probability := pairing_stats.probability }
      else
        let scenarios := (outcome_combos impact_matches).enum.map
          (fun ic =>
            scenario_for_combo stage team1_name team2_name target_w target_l
              prereqs wp ic.1 ic.2)
        let weighted :=
          (scenarios.map (fun s => s.probability * s.pairing_stats.probability)).sum
        { resultP with
          scenarios := scenarios, weighted_probability := weighted }

/-- `calculate_cross_group_probability_interactive`: missing teams or no
common target short-circuit, otherwise the found target's body runs. -/
def calculate_cross_group_probability_interactive (stage : SwissStage)
    (team1_name team2_name : String)
    (win_probabilities : Option (List ((String × String) × ℚ)))
    (skip_current_record : Bool) : CrossResult :=
  let result0 : CrossResult := ⟨false, [], [], [], 0, ""⟩
  if (stage.get_team_by_name team1_name).isNone ∨
      (stage.get_team_by_name team2_name).isNone then result0
  else
    match cross_target stage team1_name team2_name skip_current_record with
    | none =>
        { result0 with
          explanation := team1_name ++ " 和 " ++ team2_name ++ " 无法到达共同的分组" }
    | some ((target_w, target_l), prereqs) =>
        cross_with_target stage team1_name team2_name win_probabilities
          target_w target_l prereqs

/-- The sum of the scenario occurrence probabilities of a result. -/
def scenario_prob_sum (l : List Scenario) : ℚ :=
  (l.map (fun s => s.probability)).sum

/-! ### Legacy cross-group paths and the top-level matchup query
(`src/swiss_engine.py` lines 573-901) -/

/-- `_estimate_meetup_probability_in_group`: every branch of the source's
estimate assigns 4 teams; already-played pairs give 0, otherwise `1/(n-1)`. -/
def estimate_meetup_probability_in_group (team1 team2 : Team)
    (target_w target_l : Nat) : ℚ :=
  let estimated_teams : Nat :=
    if target_w = 2 ∧ target_l = 2 then 4
    else if target_w = 1 ∧ target_l = 2 then 4
    else if target_w = 2 ∧ target_l = 1 then 4
    else 4
  if team2.name ∈ team1.opponents_played then 0
  else if estimated_teams ≤ 2 then 1
  else 1 / ((estimated_teams : ℚ) - 1)

/-- The `can_reach_record` closure of `_calculate_cross_group_paths`. -/
def can_reach_record (current_w current_l target_w target_l : Nat) : Bool :=
  if target_w < current_w ∨ target_l < current_l then false
  else if current_w = target_w ∧ current_l = target_l then true
  else if 3 ≤ current_w ∨ 3 ≤ current_l then false
  else if 3 ≤ target_w ∨ 3 ≤ target_l then false
  else true

/-- One entry of `_calculate_cross_group_paths`'s result. -/
structure CrossPath where
  target_record : String
  team1_needs : String
  team2_needs : String
  probability : ℚ
  description : String
  is_conditional : Bool
deriving DecidableEq

/-- The description string of a cross-group path (the source's `{:.1%}`
float formatting is rendered as `toString` of the rational). -/
def cross_path_description (team1 team2 : Team) (t1_needs t2_needs : String)
    (target_w target_l : Nat) (meetup : ℚ) : String :=
  let target_str := toString target_w ++ "-" ++ toString target_l
  "目标分组：" ++ target_str ++ "\n  • " ++ team1.name ++ " (" ++ team1.record ++ "): " ++
    t1_needs ++ "\n  • " ++ team2.name ++ " (" ++ team2.record ++ "): " ++ t2_needs ++
    "\n  • 假设两队都到达 " ++ target_str ++ " 组后，在该组相遇的概率: " ++ toString meetup ++
    "\n\n说明：这是条件概率 - 假设两队都成功到达该分组的前提下相遇的概率。"

/-- `_calculate_cross_group_paths`: candidate records both teams can reach,
excluding the both-already-there case and zero estimates, sorted stably by
descending probability (Python's stable `sort(..., reverse=True)`). -/
def calculate_cross_group_paths (team1 team2 : Team) : List CrossPath :=
  let paths := possible_records.foldl
    (fun acc ttl =>
      let target_w := ttl.1
      let target_l := ttl.2
      if can_reach_record team1.wins team1.losses target_w target_l &&
          can_reach_record team2.wins team2.losses target_w target_l then
        let wn1 : Int := (target_w : Int) - (team1.wins : Int)
        let ln1 : Int := (target_l : Int) - (team1.losses : Int)
        let wn2 : Int := (target_w : Int) - (team2.wins : Int)
        let ln2 : Int := (target_l : Int) - (team2.losses : Int)
        if wn1 = 0 ∧ ln1 = 0 ∧ wn2 = 0 ∧ ln2 = 0 then acc
        else
          let t1_needs := describe_path team1.wins team1.losses target_w target_l team1.name
          let t2_needs := describe_path team2.wins team2.losses target_w target_l team2.name
          let meetup := estimate_meetup_probability_in_group team1 team2 target_w target_l
          if 0 < meetup then
            acc ++ [⟨toString target_w ++ "-" ++ toString target_l, t1_needs, t2_needs,
              meetup, cross_path_description team1 team2 t1_needs t2_needs target_w target_l meetup,
              true⟩]
          else acc
      else acc)
    []
  paths.mergeSort (fun a b => decide (b.probability ≤ a.probability))

/-- The `pairing_stats` dict of the same-group branch of
`calculate_matchup_probability` (different fields from `PairingStats`). -/
structure MatchupPairingStats where
  total_pairings : Nat
  favorable_pairings : Nat
  teams_in_group : Nat
  team_names : List String
deriving DecidableEq

/-- The result dict of `calculate_matchup_probability`.  The Python dict
starts without the `need_interactive` / `interactive_data` keys and with
`pairing_stats = {}`; absence is modelled by `false` / `none`. -/
structure MatchupResult where
  probability : ℚ
  can_meet_directly : Bool
  reason : String
  explanation : String
  paths : List CrossPath
  same_group : Bool
  pairing_stats : Option MatchupPairingStats
  need_interactive : Bool
  interactive_data : Option CrossResult
deriving DecidableEq

/-- The same-group computation of `calculate_matchup_probability`
(lines 812-861), reached when the two teams share a record and are not both
locked onto other opponents. -/
def same_group_calculation (stage : SwissStage) (team1 : Team)
    (team1_name team2_name : String) : MatchupResult :=
  let result0 : MatchupResult := ⟨0, false, "", "", [], false, none, false, none⟩
  let resultS := { result0 with same_group := true, can_meet_directly := true }
  let teams_in_group := stage.get_teams_by_record team1.wins team1.losses
  if teams_in_group.length < 2 then
    { resultS with probability := 0, reason := "分组中队伍不足" }
  else
    let all_pairings := generate_valid_pairings teams_in_group
    if all_pairings = [] then
      { resultS with
        probability := 0
        reason := "无法生成有效配对"
        explanation := "由于已交手限制，无法为该组生成有效的配对方案。" }
    else
      let target_pairing_count :=
        all_pairings.countP (fun p => pairing_contains_pair team1_name team2_name p)
      let prob : ℚ := (target_pairing_count : ℚ) / (all_pairings.length : ℚ)
      { resultS with
        probability := prob
        pairing_stats := some ⟨all_pairings.length, target_pairing_count,
          teams_in_group.length, teams_in_group.map (fun t => t.name)⟩
        explanation :=
          "两队都在 " ++ team1.record ++ " 组。\n该组共有 " ++
            toString teams_in_group.length ++ " 支队伍：" ++
            String.intercalate ", " (teams_in_group.map (fun t => t.name)) ++
            "\n考虑已交手限制后，共有 " ++ toString all_pairings.length ++
            " 种有效配对方案。\n其中 " ++ toString target_pairing_count ++ " 种方案包含 " ++
            team1_name ++ " vs " ++ team2_name ++ " 这场对阵。\n因此相遇概率 = " ++
            toString target_pairing_count ++ "/" ++ toString all_pairings.length ++
            " = " ++ toString prob }

/-- Whether the last history entry exists and is pending. -/
def has_pending_last (t : Team) : Bool :=
  match t.match_history.getLast? with
  | some e => e.2 = none
  | none => false

/-- The opponent name of the last history entry (only consulted by the
source after `has_pending_last` holds). -/
def last_pending_opponent (t : Team) : String :=
  match t.match_history.getLast? with
  | some e => e.1
  | none => ""

/-- `calculate_matchup_probability` (lines 717-901).  A missing team raises
`ValueError` (modelled as `Except.error`); inactive or already-played pairs
return zero with a reason; same-record pairs either compute the direct group
probability or, when both are locked onto other opponents, fall through to
the skip-current-record interactive query; different records fall through to
the interactive query and, failing that, the legacy conditional paths. -/
def calculate_matchup_probability (stage : SwissStage)
    (team1_name team2_name : String) : Except String MatchupResult :=
  let result0 : MatchupResult := ⟨0, false, "", "", [], false, none, false, none⟩
  match stage.get_team_by_name team1_name, stage.get_team_by_name team2_name with
  | some team1, some team2 =>
      if !team1.is_active || !team2.is_active then
        .ok { result0 with
          reason := (if !team1.is_active then team1_name else team2_name) ++
            " 已经不在比赛中（已晋级或已淘汰）"
          explanation := "只有仍在比赛中的队伍才可能相遇。" }
      else if team2_name ∈ team1.opponents_played then
        .ok { result0 with
          reason := "两队已经交手过"
          explanation := "根据瑞士轮规则，已经交手过的队伍不会再次相遇。" }
      else if team1.record = team2.record then
        if has_pending_last team1 && has_pending_last team2 then
          let team1_pending_opponent := last_pending_opponent team1
          let team2_pending_opponent := last_pending_opponent team2
          if decide (team1_pending_opponent ≠ team2_name) ||
              decide (team2_pending_opponent ≠ team1_name) then
            let resultR := { result0 with
              same_group := false
              can_meet_directly := false
              reason := "两队虽然战绩相同（" ++ team1.record ++ "），但已确定对阵其他队伍（" ++
                team1_name ++ " vs " ++ team1_pending_opponent ++ ", " ++ team2_name ++
                " vs " ++ team2_pending_opponent ++ "）" }
            let interactive_result :=
              calculate_cross_group_probability_interactive stage team1_name team2_name
                none true
            if interactive_result.need_input then
              .ok { resultR with
                need_interactive := true
                interactive_data := some interactive_result
                explanation := team1_name ++ " 和 " ++ team2_name ++ " 当前都在 " ++
                  team1.record ++ " 组，但已经确定了本轮对手。\n  • " ++ team1_name ++
                  " 将对阵 " ++ team1_pending_opponent ++ "\n  • " ++ team2_name ++
                  " 将对阵 " ++ team2_pending_opponent ++
                  "\n\n两队只能在后续轮次（根据比赛结果进入新的分组）相遇。\n系统需要您输入相关比赛的胜率估算才能计算精确概率。" }
            else if interactive_result.explanation ≠ "" then
              .ok { resultR with
                explanation := team1_name ++ " 和 " ++ team2_name ++ " 当前都在 " ++
                  team1.record ++ " 组，但已经确定了本轮对手。\n  • " ++ team1_name ++
                  " 将对阵 " ++ team1_pending_opponent ++ "\n  • " ++ team2_name ++
                  " 将对阵 " ++ team2_pending_opponent ++ "\n\n" ++
                  interactive_result.explanation }
            else .ok resultR
          else .ok (same_group_calculation stage team1 team1_name team2_name)
        else .ok (same_group_calculation stage team1 team1_name team2_name)
      else
        let resultD := { result0 with
          same_group := false
          can_meet_directly := false
          reason := "战绩不同（" ++ team1_name ++ ": " ++ team1.record ++ ", " ++
            team2_name ++ ": " ++ team2.record ++ "）" }
        let interactive_result :=
          calculate_cross_group_probability_interactive stage team1_name team2_name
            none false
        if interactive_result.need_input then
          .ok { resultD with
            need_interactive := true
            interactive_data := some interactive_result
            explanation := team1_name ++ " 当前战绩 " ++ team1.record ++ "，" ++
              team2_name ++ " 当前战绩 " ++ team2.record ++
              "。\n\n两队不在同一分组，需要通过比赛结果移动到相同分组才能相遇。\n系统需要您输入相关比赛的胜率估算才能计算精确概率。" }
        else if interactive_result.explanation ≠ "" then
          .ok { resultD with explanation := interactive_result.explanation }
        else
          let paths := calculate_cross_group_paths team1 team2
          if paths ≠ [] then
            .ok { resultD with
              paths := paths
              probability := 0
              explanation := team1_name ++ " 当前战绩 " ++ team1.record ++ "，" ++
                team2_name ++ " 当前战绩 " ++ team2.record ++
                "。\n\n两队不在同一分组，需要通过比赛结果移动到相同分组才能相遇。\n以下是可能的相遇路径及其条件概率：\n" }
          else
            .ok { resultD with
              paths := paths
              explanation := team1_name ++ " (" ++ team1.record ++ ") 和 " ++ team2_name ++
                " (" ++ team2.record ++ ") 在当前状态下无法在后续轮次相遇。" }
  | _, _ => .error "队伍不存在"

/-! ### Advancement simulator (`simulate_advancement_probability`,
lines 942-988).  `random.random() < 0.5` draws are modelled by an explicit
coin stream `coins : Nat → Bool` consumed at an advancing index. -/

/-- One simulated trial's while loop from record `(w, l)`: flip coins until
qualified or eliminated, returning whether the trial qualified and the next
coin index.  The structural fuel bounds the loop; 6 suffices from any active
record since every step increments a counter and the loop stops at three
wins or three losses. -/
def advancement_trial : Nat → Nat → Nat → (Nat → Bool) → Nat → Bool × Nat
  | 0, w, _, _, idx => (3 ≤ w, idx)
  | fuel + 1, w, l, coins, idx =>
      if 3 ≤ w ∨ 3 ≤ l then (3 ≤ w, idx)
      else if coins idx then advancement_trial fuel (w + 1) l coins (idx + 1)
      else advancement_trial fuel w (l + 1) coins (idx + 1)

/-- The trial loop of `simulate_advancement_probability`: each trial starts
from a fresh deep copy of the stage (value copy: the team's current record)
and bumps the qualify/eliminate counters. -/
def run_advancement_trials : Nat → Nat → Nat → (Nat → Bool) → Nat → Nat × Nat → Nat × Nat
  | 0, _, _, _, _, acc => acc
  | n + 1, w, l, coins, idx, acc =>
      let tr := advancement_trial 6 w l coins idx
      run_advancement_trials n w l coins tr.2
        (if tr.1 then (acc.1 + 1, acc.2) else (acc.1, acc.2 + 1))

/-- `simulate_advancement_probability`: a missing team raises `ValueError`
(modelled as `Except.error`); already-decided teams return the degenerate
rates without sampling; otherwise the Monte-Carlo rates
`(qualify/n, eliminate/n)`. -/
def simulate_advancement_probability (stage : SwissStage) (team_name : String)
    (num_simulations : Nat) (coins : Nat → Bool) : Except String (ℚ × ℚ) :=
  match stage.get_team_by_name team_name with
  | none => .error ("队伍 " ++ team_name ++ " 不存在")
  | some team =>
      if team.is_qualified then .ok (1, 0)
      else if team.is_eliminated then .ok (0, 1)
      else
        let counts := run_advancement_trials num_simulations team.wins team.losses coins 0 (0, 0)
        .ok ((counts.1 : ℚ) / (num_simulations : ℚ), (counts.2 : ℚ) / (num_simulations : ℚ))

/-! ### Heap model of the hypothetical-simulation functions

The value-level definitions above model `copy.deepcopy` as a value copy, so
Python's aliasing is invisible there.  To state that hypothetical analysis
never mutates the caller's live objects, the two mutating operations are
repeated here over an explicit heap: team objects live in a `List Team`
heap addressed by position, a stage holds references, `deepcopy` allocates
fresh cells at the end of the heap, and `+=` updates become `List.set` on
the referenced cell.  The frame theorems state that the heap prefix existing
before the call — every object the caller can reach — is returned intact. -/

/-- Dereference a heap cell (out-of-range reads never occur in the runs we
reason about; they return a dummy team). -/
def heap_get (h : List Team) (r : Nat) : Team :=
  h.getD r ⟨"", 0, 0, [], []⟩

/-- `copy.deepcopy` of a stage: allocate fresh copies of all referenced
teams at the end of the heap and return the new references. -/
def heap_deepcopy (h : List Team) (refs : List Nat) : List Team × List Nat :=
  (h ++ refs.map (heap_get h), List.range' h.length refs.length)

/-- `get_team_by_name` on a heap-based stage: the first reference whose
cell has the given name. -/
def heap_find_ref (h : List Team) (refs : List Nat) (n : String) : Option Nat :=
  refs.find? (fun r => (heap_get h r).name = n)

/-- An in-place field update of one team object. -/
def heap_update (h : List Team) (r : Nat) (f : Team → Team) : List Team :=
  h.set r (f (heap_get h r))

/-- One iteration of `_simulate_group_with_results`'s loop on the heap:
look both teams up among `refs`, then mutate their counter cells. -/
def heap_apply_entry (h : List Team) (refs : List Nat)
    (e : (String × String) × String) : List Team :=
  match heap_find_ref h refs e.1.1, heap_find_ref h refs e.1.2 with
  | some r1, some r2 =>
      if e.2 = "team1_win" then
        heap_update (heap_update h r1 (fun t => { t with wins := t.wins + 1 })) r2
          (fun t => { t with losses := t.losses + 1 })
      else if e.2 = "team2_win" then
        heap_update (heap_update h r1 (fun t => { t with losses := t.losses + 1 })) r2
          (fun t => { t with wins := t.wins + 1 })
      else h
  | _, _ => h

/-- The result-application loop of `_simulate_group_with_results` on the
heap. -/
def heap_apply_results (h : List Team) (refs : List Nat)
    (results : List ((String × String) × String)) : List Team :=
  results.foldl (fun hh e => heap_apply_entry hh refs e) h

/-- `_simulate_group_with_results` on the heap: deep-copy the caller's
stage, apply the results to the copy, read the target group off the copy,
and return it with the final heap (the caller's references are untouched). -/
def heap_simulate_group_with_results (h : List Team) (caller_refs : List Nat)
    (target_w target_l : Nat) (match_results : List ((String × String) × String)) :
    List Team × List Team :=
  let copied := heap_deepcopy h caller_refs
  let h2 := heap_apply_results copied.1 copied.2 match_results
  ((copied.2.map (heap_get h2)).filter
      (fun t => decide (t.wins = target_w) && decide (t.losses = target_l) && t.is_active),
    h2)

/-- The while loop of one advancement trial on the heap, mutating the
simulated team's cell until it is decided (fuel 6 suffices from any active
record, as for `advancement_trial`). -/
def heap_advancement_loop : Nat → List Team → Nat → (Nat → Bool) → Nat →
    List Team × Nat
  | 0, h, _, _, idx => (h, idx)
  | fuel + 1, h, r, coins, idx =>
      if (heap_get h r).is_active then
        heap_advancement_loop fuel
          (if coins idx then heap_update h r (fun t => { t with wins := t.wins + 1 })
           else heap_update h r (fun t => { t with losses := t.losses + 1 }))
          r coins (idx + 1)
      else (h, idx)

/-- The trial loop of `simulate_advancement_probability` on the heap: each
trial deep-copies the caller's stage and runs the while loop on the copy.
(The re-lookup of the simulated team on the copy always succeeds in the
runs the source performs; a failed lookup skips the trial.) -/
def heap_advancement_trials : Nat → List Team → List Nat → String → (Nat → Bool) →
    Nat → Nat × Nat → List Team × (Nat × Nat)
  | 0, h, _, _, _, _, acc => (h, acc)
  | n + 1, h, caller_refs, name, coins, idx, acc =>
      let copied := heap_deepcopy h caller_refs
      match heap_find_ref copied.1 copied.2 name with
      | some r =>
          let looped := heap_advancement_loop 6 copied.1 r coins idx
          let acc' :=
            if (heap_get looped.1 r).is_qualified then (acc.1 + 1, acc.2)
            else (acc.1, acc.2 + 1)
          heap_advancement_trials n looped.1 caller_refs name coins looped.2 acc'
      | none => heap_advancement_trials n copied.1 caller_refs name coins idx acc

/-- `simulate_advancement_probability` on the heap: the error and degenerate
branches leave the heap as is; otherwise all trials run on per-trial deep
copies and the final heap is returned alongside the rates. -/
def heap_simulate_advancement (h : List Team) (caller_refs : List Nat)
    (team_name : String) (num_simulations : Nat) (coins : Nat → Bool) :
    Except String (ℚ × ℚ) × List Team :=
  match heap_find_ref h caller_refs team_name with
  | none => (.error ("队伍 " ++ team_name ++ " 不存在"), h)
  | some r =>
      if (heap_get h r).is_qualified then (.ok (1, 0), h)
      else if (heap_get h r).is_eliminated then (.ok (0, 1), h)
      else
        (.ok (((heap_advancement_trials num_simulations h caller_refs team_name
              coins 0 (0, 0)).2.1 : ℚ) / (num_simulations : ℚ),
            ((heap_advancement_trials num_simulations h caller_refs team_name
              coins 0 (0, 0)).2.2 : ℚ) / (num_simulations : ℚ)),
          (heap_advancement_trials num_simulations h caller_refs team_name
            coins 0 (0, 0)).1)

/-! ### Spec-side definitions (for refinement statements) -/

/-- Modelled from the spec's wording for the direct-matchup formula: the
number of returned pairings that contain the pair `{a, b}`. -/
def favorable_pairings_count (team1_name team2_name : String)
    (ps : List (List (Team × Team))) : Nat :=
  (ps.filter (fun p => pairing_contains_pair team1_name team2_name p)).length

/-- Modelled from the spec's wording: a name is mentioned in a match-result
mapping if it appears on either side of some key. -/
def name_in_results (n : String) (results : List ((String × String) × String)) : Bool :=
  results.any (fun e => decide (e.1.1 = n) || decide (e.1.2 = n))

/-- The multiset of teams covered by a pairing, as a flat list. -/
def pairing_teams : List (Team × Team) → List Team
  | [] => []
  | pr :: rest => pr.1 :: pr.2 :: pairing_teams rest

/-! ### Concrete fixtures for witnesses and counterexamples -/

/-- A fresh 0-0 team named `W`. -/
def tW : Team := ⟨"W", 0, 0, [], []⟩

/-- A fresh 0-0 team named `X`. -/
def tX : Team := ⟨"X", 0, 0, [], []⟩

/-- A fresh 0-0 team named `Y`. -/
def tY : Team := ⟨"Y", 0, 0, [], []⟩

/-- A fresh 0-0 team named `Z`. -/
def tZ : Team := ⟨"Z", 0, 0, [], []⟩

/-- A team whose record of having played `A` is one-sided: only `B` lists
`A` among its played opponents. -/
def asymB : Team := ⟨"B", 0, 0, ["A"], []⟩

/-- The fresh counterpart of `asymB`, with an empty played set. -/
def asymA : Team := ⟨"A", 0, 0, [], []⟩

/-- Five-team stage: `A` (1-1) has a pending match against `C` (1-1),
`D` and `E` (both 1-1) have a pending match against each other, and `B`
is already 2-1.  Querying `A` vs `B` finds target group 2-1 with the
`D`-`E` match as its one impact match. -/
def stage5 : SwissStage :=
  ⟨[⟨"A", 1, 1, [], [("C", none)]⟩,
    ⟨"B", 2, 1, [], []⟩,
    ⟨"C", 1, 1, [], [("A", none)]⟩,
    ⟨"D", 1, 1, [], [("E", none)]⟩,
    ⟨"E", 1, 1, [], [("D", none)]⟩], [], 1⟩

/-! ## Lemmas -/

theorem set_list_go_nodup_disjoint :
    ∀ (l seen : List Team),
      (set_list_go l seen).Nodup ∧ ∀ x ∈ set_list_go l seen, x ∉ seen := by
  intro l
  induction l with
  | nil => intro seen; simp [set_list_go]
  | cons t rest ih =>
      intro seen
      by_cases ht : t ∈ seen
      · simpa [set_list_go, ht] using ih seen
      · have h2 := ih (t :: seen)
        refine ⟨?_, ?_⟩
        · rw [set_list_go, if_neg ht, List.nodup_cons]
          exact ⟨fun hmem => (h2.2 t hmem) (List.mem_cons_self t seen), h2.1⟩
        · intro x hx
          rw [set_list_go, if_neg ht] at hx
          rcases List.mem_cons.mp hx with rfl | hx'
          · exact ht
          · exact fun hxs => (h2.2 x hx') (List.mem_cons_of_mem t hxs)

theorem set_list_nodup (l : List Team) : (set_list l).Nodup :=
  (set_list_go_nodup_disjoint l []).1

theorem pairing_teams_length (p : List (Team × Team)) :
    (pairing_teams p).length = 2 * p.length := by
  induction p with
  | nil => rfl
  | cons pr rest ih => simp [pairing_teams, ih]; ring

theorem can_play_against_iff (t o : Team) :
    t.can_play_against o = true ↔ t.name ≠ o.name ∧ o.name ∉ t.opponents_played := by
  unfold Team.can_play_against
  split
  · simp_all
  · split <;> simp_all

/-- Core soundness of the backtracking enumeration: with enough fuel on a
duplicate-free remaining list, every recorded pairing covers the remaining
teams exactly once and every recorded pair passed the `can_play_against`
check (pivot against partner). -/
theorem backtrack_sound :
    ∀ (fuel : Nat) (remaining : List Team), remaining.length ≤ fuel →
      remaining.Nodup → ∀ p ∈ backtrack fuel remaining,
        (pairing_teams p).Perm remaining ∧
          ∀ pr ∈ p, pr.1.can_play_against pr.2 = true := by
  intro fuel
  induction fuel with
  | zero =>
      intro remaining hlen _ p hp
      have hnil : remaining = [] :=
        List.eq_nil_of_length_eq_zero (Nat.le_zero.mp hlen)
      subst hnil
      rw [backtrack, List.mem_singleton] at hp
      subst hp
      exact ⟨List.Perm.refl _, by simp⟩
  | succ fuel ih =>
      intro remaining hlen hnd p hp
      match remaining, hlen, hnd, hp with
      | [], _, _, hp =>
          rw [backtrack, List.mem_singleton] at hp
          subst hp
          exact ⟨List.Perm.refl _, by simp⟩
      | t :: rest, hlen, hnd, hp =>
          rw [backtrack, List.mem_flatten] at hp
          obtain ⟨l, hl, hpl⟩ := hp
          rw [List.mem_map] at hl
          obtain ⟨o, ho, rfl⟩ := hl
          by_cases hcond : (decide (o ≠ t) && t.can_play_against o) = true
          · rw [if_pos hcond] at hpl
            have hone : o ≠ t ∧ t.can_play_against o = true := by
              simpa using hcond
            by_cases hvalid :
                is_valid_pairing
                  ((t :: rest).filter (fun x => decide (x ≠ t) && decide (x ≠ o))) = true
            · rw [if_pos hvalid, List.mem_map] at hpl
              obtain ⟨sol, hsol, rfl⟩ := hpl
              have hndt : t ∉ rest := (List.nodup_cons.mp hnd).1
              have hndr : rest.Nodup := (List.nodup_cons.mp hnd).2
              have hpred_t : (decide (t ≠ t) && decide (t ≠ o)) = false := by simp
              have hfil :
                  (t :: rest).filter (fun x => decide (x ≠ t) && decide (x ≠ o)) =
                    rest.filter (fun x => decide (x ≠ t) && decide (x ≠ o)) :=
                List.filter_cons_of_neg (by simp)
              have hfil2 :
                  rest.filter (fun x => decide (x ≠ t) && decide (x ≠ o)) =
                    rest.filter (fun x => x ≠ o) := by
                refine List.filter_congr ?_
                intro x hx
                have hxt : x ≠ t := fun hxt => hndt (hxt ▸ hx)
                simp [hxt]
              have ho_rest : o ∈ rest := by
                rcases List.mem_cons.mp ho with rfl | h
                · exact absurd rfl hone.1
                · exact h
              have hfil3 : rest.filter (fun x => x ≠ o) = rest.erase o := by
                rw [List.Nodup.erase_eq_filter hndr]
                refine (List.filter_congr ?_).symm
                intro x _
                by_cases hxo : x = o <;> simp [hxo, bne]
              have hrem_eq :
                  (t :: rest).filter (fun x => decide (x ≠ t) && decide (x ≠ o)) =
                    rest.erase o := by rw [hfil, hfil2, hfil3]
              have hrem_len : (rest.erase o).length ≤ fuel := by
                have h1 : (rest.erase o).length ≤ rest.length :=
                  List.length_erase_le o rest
                have h2 : rest.length + 1 ≤ fuel + 1 := by simpa using hlen
                omega
              have hrem_nd : (rest.erase o).Nodup := hndr.erase o
              have ihsol := ih (rest.erase o) hrem_len hrem_nd sol (hrem_eq ▸ hsol)
              constructor
              · have hperm1 : pairing_teams ((t, o) :: sol) =
                    t :: o :: pairing_teams sol := rfl
                rw [hperm1]
                have h2 : (o :: pairing_teams sol).Perm (o :: rest.erase o) :=
                  (ihsol.1).cons o
                have h3 : (o :: rest.erase o).Perm rest :=
                  (List.perm_cons_erase ho_rest).symm
                exact (h2.trans h3).cons t
              · intro pr hpr
                rcases List.mem_cons.mp hpr with rfl | h
                · exact hone.2
                · exact ihsol.2 pr h
            · rw [if_neg hvalid] at hpl
              exact absurd hpl (List.not_mem_nil _)
          · rw [if_neg hcond] at hpl
            exact absurd hpl (List.not_mem_nil _)

theorem generate_valid_pairings_sound (teams : List Team) :
    ∀ p ∈ generate_valid_pairings teams,
      (pairing_teams p).Perm (set_list teams) ∧
        ∀ pr ∈ p, pr.1.can_play_against pr.2 = true := by
  intro p hp
  by_cases h : teams = []
  · subst h
    rw [generate_valid_pairings, if_pos rfl, List.mem_singleton] at hp
    subst hp
    exact ⟨List.Perm.refl _, by simp⟩
  · rw [generate_valid_pairings, if_neg h] at hp
    exact backtrack_sound _ _ (le_refl _) (set_list_nodup teams) p hp

theorem generate_valid_pairings_singleton (t : Team) :
    generate_valid_pairings [t] = [] := by
  rw [generate_valid_pairings]
  simp [set_list, set_list_go, backtrack]

/-! ## Claim theorems -/

/-- C2 (counterexample): the rematch check of the pairing generator is
one-directional (it consults only the pivot's `opponents_played`), so with a
one-sided played record the generator returns a pairing containing a pair
whose first team is listed in the second team's `opponents_played` —
refuting the claim that no team of a returned pair is in the other's
`opponents_played` set, for every input list. -/
theorem one_sided_rematch_pair_returned :
    (generate_valid_pairings [asymA, asymB]).any
      (fun p => p.any (fun pr => decide (pr.1.name ∈ pr.2.opponents_played))) = true := by
  decide

/-- C2 (amended): every pairing returned by `generate_valid_pairings` covers
each distinct input team exactly once, and every returned pair `(t, o)`
satisfies the generator's directional rematch check: distinct names and
`o.name ∉ t.opponents_played` (hence no already-played pair whenever the
teams' played records are mutually consistent). -/
theorem generate_valid_pairings_partition_forward_no_rematch :
    ∀ (teams : List Team), ∀ p ∈ generate_valid_pairings teams,
      (pairing_teams p).Perm (set_list teams) ∧
        ∀ pr ∈ p, pr.1.name ≠ pr.2.name ∧ pr.2.name ∉ pr.1.opponents_played := by
  intro teams p hp
  obtain ⟨hperm, hval⟩ := generate_valid_pairings_sound teams p hp
  exact ⟨hperm, fun pr hpr => (can_play_against_iff pr.1 pr.2).mp (hval pr hpr)⟩

theorem generate_valid_pairings_partition_forward_no_rematch_witness :
    (pairing_teams [(tW, tX), (tY, tZ)]).Perm (set_list [tW, tX, tY, tZ]) ∧
      ∀ pr ∈ [(tW, tX), (tY, tZ)],
        pr.1.name ≠ pr.2.name ∧ pr.2.name ∉ pr.1.opponents_played :=
  generate_valid_pairings_partition_forward_no_rematch
    [tW, tX, tY, tZ] [(tW, tX), (tY, tZ)] (by decide)

/-- C7 (counterexample): `generate_valid_pairings` deduplicates its input
through `set(teams)`, so an odd-length input list containing a duplicated
team is paired like its even-sized set and yields a non-empty pairing list —
refuting the claim for every odd-size input list. -/
theorem duplicate_odd_list_pairable_demo :
    [tW, tW, tX].length % 2 = 1 ∧ generate_valid_pairings [tW, tW, tX] ≠ [] := by
  constructor
  · decide
  · decide

/-- C7 (amended): whenever the set of distinct input teams has odd size
(in particular for every odd-size duplicate-free input list),
`generate_valid_pairings` returns the empty list, and the empty input
yields exactly the single empty pairing. -/
theorem odd_distinct_bucket_unpairable :
    (∀ teams : List Team, (set_list teams).length % 2 = 1 →
        generate_valid_pairings teams = []) ∧
      generate_valid_pairings [] = [[]] := by
  constructor
  · intro teams hodd
    by_contra hne
    obtain ⟨p, hp⟩ := List.exists_mem_of_ne_nil _ hne
    have hlen := (generate_valid_pairings_sound teams p hp).1.length_eq
    rw [pairing_teams_length] at hlen
    omega
  · rfl

theorem odd_distinct_bucket_unpairable_witness :
    (set_list [tW, tX, tY]).length % 2 = 1 ∧
      generate_valid_pairings [tW, tX, tY] = [] :=
  ⟨by decide, odd_distinct_bucket_unpairable.1 [tW, tX, tY] (by decide)⟩

/-- C4 (supporting theorem for a code bug): the backtracking pivots on
`next(iter(remaining))` of a Python `set`, whose iteration order is
unspecified (it follows the interpreter's randomized string hashing).
Rendering two admissible iteration orders of the same four-team set shows
the returned pairing list differs with the iteration order, so the output
order is not determined by the input alone — hence not reproducible across
runs, and not driven by input order as the claim states. -/
theorem pairing_order_depends_on_set_iteration :
    generate_valid_pairings [tW, tX, tY, tZ] ≠
      generate_valid_pairings [tZ, tY, tX, tW] := by
  decide

/-- C1: the probability reported by `_calculate_pairing_probability` equals
the number of generated pairings containing the pair `{a, b}` divided by the
total number of generated pairings, and is 0 when that total is 0. -/
theorem calculate_pairing_probability_is_favorable_ratio
    (a b : String) (bucket : List Team) (_hab : a ≠ b) :
    (calculate_pairing_probability a b bucket).probability =
      (if (generate_valid_pairings bucket).length = 0 then 0
       else (favorable_pairings_count a b (generate_valid_pairings bucket) : ℚ) /
         ((generate_valid_pairings bucket).length : ℚ)) := by
  rcases bucket with _ | ⟨t, _ | ⟨u, rest⟩⟩
  · rw [calculate_pairing_probability]
    simp [generate_valid_pairings, favorable_pairings_count, pairing_contains_pair]
  · rw [calculate_pairing_probability]
    simp [generate_valid_pairings_singleton]
  · rw [calculate_pairing_probability]
    have hlen : ¬ (t :: u :: rest).length < 2 := by
      simp only [List.length_cons]
      omega
    rw [if_neg hlen]
    by_cases hemp : generate_valid_pairings (t :: u :: rest) = []
    · simp [hemp]
    · have hlen0 : (generate_valid_pairings (t :: u :: rest)).length ≠ 0 := by
        simpa [List.length_eq_zero] using hemp
      simp only [if_neg hemp, if_neg hlen0]
      simp [favorable_pairings_count, List.countP_eq_length_filter]

theorem calculate_pairing_probability_is_favorable_ratio_witness :
    ("W" : String) ≠ "X" ∧
      (calculate_pairing_probability "W" "X" [tW, tX, tY, tZ]).probability =
        (if (generate_valid_pairings [tW, tX, tY, tZ]).length = 0 then 0
         else (favorable_pairings_count "W" "X" (generate_valid_pairings [tW, tX, tY, tZ]) : ℚ) /
           ((generate_valid_pairings [tW, tX, tY, tZ]).length : ℚ)) :=
  ⟨by decide,
    calculate_pairing_probability_is_favorable_ratio "W" "X" [tW, tX, tY, tZ] (by decide)⟩

/-- C6: whenever reaching the target record from the team's current record
requires more than one additional decided result,
`_find_path_to_target_group` reports no path (returns `None`). -/
theorem multi_step_path_reported_infeasible (stage : SwissStage) (team : Team)
    (target_w target_l : Nat)
    (h : 1 < ((target_w : Int) - (team.wins : Int)) +
        ((target_l : Int) - (team.losses : Int))) :
    find_path_to_target_group stage team target_w target_l = none := by
  simp only [find_path_to_target_group]
  split_ifs <;> first | rfl | (exfalso; omega)

theorem multi_step_path_reported_infeasible_witness :
    (1 < (((2 : Nat) : Int) - (tW.wins : Int)) + (((2 : Nat) : Int) - (tW.losses : Int))) ∧
      find_path_to_target_group stage5 tW 2 2 = none :=
  ⟨by decide, multi_step_path_reported_infeasible stage5 tW 2 2 (by decide)⟩

/-- C9 (counterexample): querying a competitor name that does not exist makes
`calculate_matchup_probability` and `simulate_advancement_probability` raise
`ValueError` (modelled as `Except.error`), i.e. the NotFound condition is
thrown, not surfaced as part of a returned result structure — refuting the
claim for both engine queries. -/
theorem missing_team_raises_value_error_demo :
    calculate_matchup_probability stage5 "A" "ZZZ" = .error "队伍不存在" ∧
      simulate_advancement_probability stage5 "ZZZ" 5 (fun _ => false) =
        .error "队伍 ZZZ 不存在" := by
  exact ⟨rfl, rfl⟩

/-- C9 (amended): when either queried name is missing from the stage,
`calculate_matchup_probability` raises `ValueError("队伍不存在")`, and when
the queried name is missing `simulate_advancement_probability` raises
`ValueError(f"队伍 {name} 不存在")`; the NotFound condition is a raised
fault for these two queries, not a field of their result structures. -/
theorem missing_team_is_error_not_result (stage : SwissStage) (a b nm : String)
    (n : Nat) (coins : Nat → Bool)
    (h1 : stage.get_team_by_name a = none ∨ stage.get_team_by_name b = none)
    (h2 : stage.get_team_by_name nm = none) :
    calculate_matchup_probability stage a b = .error "队伍不存在" ∧
      simulate_advancement_probability stage nm n coins =
        .error ("队伍 " ++ nm ++ " 不存在") := by
  constructor
  · rcases h1 with h | h
    · cases hb : stage.get_team_by_name b <;>
        · rw [calculate_matchup_probability, h, hb]
    · cases ha : stage.get_team_by_name a <;>
        · rw [calculate_matchup_probability, ha, h]
  · rw [simulate_advancement_probability, h2]

theorem missing_team_is_error_not_result_witness :
    (stage5.get_team_by_name "A" = none ∨ stage5.get_team_by_name "QQ" = none) ∧
      stage5.get_team_by_name "PP" = none ∧
      calculate_matchup_probability stage5 "A" "QQ" = .error "队伍不存在" ∧
      simulate_advancement_probability stage5 "PP" 3 (fun _ => true) =
        .error ("队伍 " ++ "PP" ++ " 不存在") := by
  refine ⟨Or.inr (by decide), by decide, ?_⟩
  exact missing_team_is_error_not_result stage5 "A" "QQ" "PP" 3 (fun _ => true)
    (Or.inr (by decide)) (by decide)

theorem sum_map_mul_left_q {α : Type} (l : List α) (g : α → ℚ) (a : ℚ) :
    (l.map (fun x => a * g x)).sum = a * (l.map g).sum := by
  induction l with
  | nil => simp
  | cons x xs ih => simp [ih, mul_add]

theorem foldl_mul_hom (f : ℚ → PendingMatch × String → ℚ)
    (hf : ∀ a mo, f a mo = a * f 1 mo) :
    ∀ (c : List (PendingMatch × String)) (a : ℚ), c.foldl f a = a * c.foldl f 1 := by
  intro c
  induction c with
  | nil => intro a; simp
  | cons mo c ih =>
      intro a
      rw [List.foldl_cons, List.foldl_cons, ih (f a mo), ih (f 1 mo), hf a mo]
      ring

theorem combo_prob_cons (wp : List ((String × String) × ℚ))
    (mo : PendingMatch × String) (c : List (PendingMatch × String)) :
    combo_prob wp (mo :: c) =
      (if mo.2 = "team1_win" then lookup_prob wp (sorted_pair mo.1.team1 mo.1.team2)
       else 1 - lookup_prob wp (sorted_pair mo.1.team1 mo.1.team2)) * combo_prob wp c := by
  have hf : ∀ (a : ℚ) (mo' : PendingMatch × String),
      (if mo'.2 = "team1_win" then a * lookup_prob wp (sorted_pair mo'.1.team1 mo'.1.team2)
       else a * (1 - lookup_prob wp (sorted_pair mo'.1.team1 mo'.1.team2))) =
        a * (if mo'.2 = "team1_win" then 1 * lookup_prob wp (sorted_pair mo'.1.team1 mo'.1.team2)
             else 1 * (1 - lookup_prob wp (sorted_pair mo'.1.team1 mo'.1.team2))) := by
    intro a mo'
    by_cases h : mo'.2 = "team1_win" <;> simp [h]
  rw [combo_prob, List.foldl_cons]
  rw [foldl_mul_hom _ hf c]
  rw [combo_prob]
  by_cases h : mo.2 = "team1_win" <;> simp [h]

theorem outcome_combos_prob_sum (wp : List ((String × String) × ℚ)) :
    ∀ ms : List PendingMatch,
      ((outcome_combos ms).map (fun c => combo_prob wp c)).sum = 1 := by
  intro ms
  induction ms with
  | nil => simp [outcome_combos, combo_prob]
  | cons m rest ih =>
      rw [outcome_combos, List.map_append, List.sum_append, List.map_map, List.map_map]
      have hw : ((outcome_combos rest).map
          ((fun c => combo_prob wp c) ∘ (fun c => (m, "team1_win") :: c))).sum =
          lookup_prob wp (sorted_pair m.team1 m.team2) *
            ((outcome_combos rest).map (fun c => combo_prob wp c)).sum := by
        rw [← sum_map_mul_left_q]
        congr 1
        refine List.map_congr_left ?_
        intro c _
        simp [combo_prob_cons]
      have hl : ((outcome_combos rest).map
          ((fun c => combo_prob wp c) ∘ (fun c => (m, "team2_win") :: c))).sum =
          (1 - lookup_prob wp (sorted_pair m.team1 m.team2)) *
            ((outcome_combos rest).map (fun c => combo_prob wp c)).sum := by
        rw [← sum_map_mul_left_q]
        congr 1
        refine List.map_congr_left ?_
        intro c _
        simp [combo_prob_cons]
      rw [hw, hl, ih]
      ring

theorem outcome_combos_length (ms : List PendingMatch) :
    (outcome_combos ms).length = 2 ^ ms.length := by
  induction ms with
  | nil => rfl
  | cons m rest ih =>
      simp only [outcome_combos, List.length_append, List.length_map, ih, List.length_cons]
      rw [pow_succ]
      ring

theorem cross_target_some (stage : SwissStage) (a b : String) (skip : Bool)
    (tr : (Nat × Nat) × List Prereq) (h : cross_target stage a b skip = some tr) :
    ∃ t1 t2, stage.get_team_by_name a = some t1 ∧ stage.get_team_by_name b = some t2 ∧
      find_target_record stage t1 t2 a b skip possible_records = some tr := by
  unfold cross_target at h
  cases h1 : stage.get_team_by_name a <;> rw [h1] at h
  · simp at h
  · cases h2 : stage.get_team_by_name b <;> rw [h2] at h
    · simp at h
    · exact ⟨_, _, rfl, rfl, h⟩

theorem cross_with_target_impact_list (stage : SwissStage) (a b : String)
    (wp : Option (List ((String × String) × ℚ))) (tw tl : Nat) (prereqs : List Prereq) :
    (cross_with_target stage a b wp tw tl prereqs).impact_matches =
      identify_impact_matches stage tw tl (prereq_excludes prereqs) := by
  cases wp with
  | none => rfl
  | some w =>
      by_cases himp : identify_impact_matches stage tw tl (prereq_excludes prereqs) = [] <;>
        simp [cross_with_target, himp]

theorem cross_with_target_impact_scenarios (stage : SwissStage) (a b : String)
    (wp : List ((String × String) × ℚ)) (tw tl : Nat) (prereqs : List Prereq)
    (himp : identify_impact_matches stage tw tl (prereq_excludes prereqs) ≠ []) :
    (cross_with_target stage a b (some wp) tw tl prereqs).scenarios =
      (outcome_combos (identify_impact_matches stage tw tl (prereq_excludes prereqs))).enum.map
        (fun ic => scenario_for_combo stage a b tw tl prereqs wp ic.1 ic.2) := by
  simp [cross_with_target, himp]

theorem cross_interactive_target_eq (stage : SwissStage) (a b : String)
    (wp : Option (List ((String × String) × ℚ))) (skip : Bool)
    (tw tl : Nat) (prereqs : List Prereq)
    (h : cross_target stage a b skip = some ((tw, tl), prereqs)) :
    calculate_cross_group_probability_interactive stage a b wp skip =
      cross_with_target stage a b wp tw tl prereqs := by
  obtain ⟨t1, t2, h1, h2, _⟩ := cross_target_some stage a b skip _ h
  rw [calculate_cross_group_probability_interactive]
  rw [if_neg (by simp [h1, h2])]
  rw [h]

/-- C3: with a supplied probability mapping and a found common target
record, the interactive cross-group query produces exactly `2^k` scenarios
for its `k` identified impact matches, and the scenario occurrence
probabilities sum to exactly 1 (hence trivially within the claim's ±1e-9
float tolerance; float arithmetic is modelled exactly over `ℚ`).  For
`k = 0` this is the single trivial scenario of probability 1. -/
theorem cross_group_scenarios_count_and_prob_sum (stage : SwissStage)
    (a b : String) (wp : List ((String × String) × ℚ)) (skip : Bool)
    (tr : (Nat × Nat) × List Prereq)
    (h : cross_target stage a b skip = some tr) :
    (calculate_cross_group_probability_interactive stage a b (some wp) skip).scenarios.length =
        2 ^ (calculate_cross_group_probability_interactive stage a b
          (some wp) skip).impact_matches.length ∧
      scenario_prob_sum
        (calculate_cross_group_probability_interactive stage a b (some wp) skip).scenarios = 1 := by
  rcases tr with ⟨⟨tw, tl⟩, prereqs⟩
  rw [cross_interactive_target_eq stage a b (some wp) skip tw tl prereqs h]
  rw [cross_with_target_impact_list]
  by_cases himp : identify_impact_matches stage tw tl (prereq_excludes prereqs) = []
  · rw [himp]
    simp [cross_with_target, himp, scenario_prob_sum]
  · rw [cross_with_target_impact_scenarios stage a b wp tw tl prereqs himp]
    constructor
    · simp [List.enum_length, outcome_combos_length]
    · rw [scenario_prob_sum]
      have hmap : (((outcome_combos (identify_impact_matches stage tw tl
            (prereq_excludes prereqs))).enum.map
            (fun ic => scenario_for_combo stage a b tw tl prereqs wp ic.1 ic.2)).map
            (fun s => s.probability)) =
          ((outcome_combos (identify_impact_matches stage tw tl
            (prereq_excludes prereqs))).enum.map (fun ic => combo_prob wp ic.2)) := by
        rw [List.map_map]
        refine List.map_congr_left ?_
        intro ic _
        simp [scenario_for_combo]
      rw [hmap]
      have hsnd : ((outcome_combos (identify_impact_matches stage tw tl
            (prereq_excludes prereqs))).enum.map (fun ic => combo_prob wp ic.2)) =
          ((outcome_combos (identify_impact_matches stage tw tl
            (prereq_excludes prereqs))).map (fun c => combo_prob wp c)) := by
        rw [show (fun ic : Nat × List (PendingMatch × String) => combo_prob wp ic.2) =
          ((fun c => combo_prob wp c) ∘ Prod.snd) from rfl]
        rw [← List.map_map, List.enum_map_snd]
      rw [hsnd, outcome_combos_prob_sum]

theorem cross_group_scenarios_count_and_prob_sum_witness :
    cross_target stage5 "A" "B" false = some ((2, 1),
      [⟨"A", "1-1", "赢 1 场 到达 2-1 组", some ⟨"C", "1-1"⟩⟩,
        ⟨"B", "2-1", "已在 2-1 组", none⟩]) ∧
      (calculate_cross_group_probability_interactive stage5 "A" "B"
          (some []) false).scenarios.length =
        2 ^ (calculate_cross_group_probability_interactive stage5 "A" "B"
          (some []) false).impact_matches.length ∧
      scenario_prob_sum (calculate_cross_group_probability_interactive stage5 "A" "B"
        (some []) false).scenarios = 1 :=
  ⟨by decide,
    cross_group_scenarios_count_and_prob_sum stage5 "A" "B" [] false
      ((2, 1), [⟨"A", "1-1", "赢 1 场 到达 2-1 组", some ⟨"C", "1-1"⟩⟩,
        ⟨"B", "2-1", "已在 2-1 组", none⟩]) (by decide)⟩

/-- C5 (counterexample): in `stage5`'s A-vs-B query one impact match
(`D` vs `E`) is identified, and supplying an empty probability mapping —
withholding the probability of every identified impact match — does not
make the engine report that input is required: it enumerates both scenarios
using the implicit default `win_probabilities.get(key, 0.5)`, refuting the
claim that the caller must supply a probability for every impact match and
that withheld probabilities are reported rather than defaulted. -/
theorem missing_impact_probability_defaults_demo :
    (calculate_cross_group_probability_interactive stage5 "A" "B"
        (some []) false).impact_matches = [⟨"D", "E", "1-1", "1-1"⟩] ∧
      (calculate_cross_group_probability_interactive stage5 "A" "B"
        (some []) false).need_input = false ∧
      (calculate_cross_group_probability_interactive stage5 "A" "B"
        (some []) false).scenarios.length = 2 ∧
      lookup_prob [] ("D", "E") = 1 / 2 := by
  refine ⟨by decide, by decide, by decide, rfl⟩

/-- C5 (amended): the input-required report happens exactly when the whole
probability mapping is withheld (`None`): for any query with a found common
target record, the result then sets `need_input`, carries the identified
impact matches (the set of matches needing input), and enumerates no
scenarios.  When any mapping is supplied, enumeration proceeds and an
individual impact match missing from it silently defaults to probability
0.5 (the counterexample). -/
theorem none_probabilities_report_need_input (stage : SwissStage) (a b : String)
    (skip : Bool) (tw tl : Nat) (prereqs : List Prereq)
    (h : cross_target stage a b skip = some ((tw, tl), prereqs)) :
    (calculate_cross_group_probability_interactive stage a b none skip).need_input = true ∧
      (calculate_cross_group_probability_interactive stage a b none skip).impact_matches =
        identify_impact_matches stage tw tl (prereq_excludes prereqs) ∧
      (calculate_cross_group_probability_interactive stage a b none skip).scenarios = [] := by
  rw [cross_interactive_target_eq stage a b none skip tw tl prereqs h]
  exact ⟨rfl, rfl, rfl⟩

theorem none_probabilities_report_need_input_witness :
    cross_target stage5 "A" "B" false = some ((2, 1),
      [⟨"A", "1-1", "赢 1 场 到达 2-1 组", some ⟨"C", "1-1"⟩⟩,
        ⟨"B", "2-1", "已在 2-1 组", none⟩]) ∧
      (calculate_cross_group_probability_interactive stage5 "A" "B" none false).need_input = true ∧
      (calculate_cross_group_probability_interactive stage5 "A" "B" none false).impact_matches =
        identify_impact_matches stage5 2 1 (prereq_excludes
          [⟨"A", "1-1", "赢 1 场 到达 2-1 组", some ⟨"C", "1-1"⟩⟩,
            ⟨"B", "2-1", "已在 2-1 组", none⟩]) ∧
      (calculate_cross_group_probability_interactive stage5 "A" "B" none false).scenarios = [] :=
  ⟨by decide,
    none_probabilities_report_need_input stage5 "A" "B" false 2 1
      [⟨"A", "1-1", "赢 1 场 到达 2-1 组", some ⟨"C", "1-1"⟩⟩,
        ⟨"B", "2-1", "已在 2-1 组", none⟩] (by decide)⟩

theorem take_set_of_le {α : Type} (l : List α) (i : Nat) (v : α) :
    ∀ n : Nat, n ≤ i → (l.set i v).take n = l.take n := by
  induction l generalizing i with
  | nil => intro n _; simp
  | cons a l ih =>
      intro n hn
      cases i with
      | zero =>
          have : n = 0 := Nat.le_zero.mp hn
          subst this; simp
      | succ i =>
          cases n with
          | zero => simp
          | succ n =>
              rw [List.set_cons_succ, List.take_succ_cons, List.take_succ_cons,
                ih i n (Nat.le_of_succ_le_succ hn)]

theorem heap_update_take (hp : List Team) (r : Nat) (f : Team → Team) (n : Nat)
    (hr : n ≤ r) : (heap_update hp r f).take n = hp.take n :=
  take_set_of_le hp r _ n hr

theorem heap_apply_entry_take (hp : List Team) (refs : List Nat)
    (e : (String × String) × String) (n : Nat) (hrefs : ∀ r ∈ refs, n ≤ r) :
    (heap_apply_entry hp refs e).take n = hp.take n := by
  unfold heap_apply_entry
  cases h1 : heap_find_ref hp refs e.1.1 with
  | none => cases h2 : heap_find_ref hp refs e.1.2 <;> rfl
  | some r1 =>
      cases h2 : heap_find_ref hp refs e.1.2 with
      | none => rfl
      | some r2 =>
          have hr1 : n ≤ r1 := hrefs r1 (List.mem_of_find?_eq_some h1)
          have hr2 : n ≤ r2 := hrefs r2 (List.mem_of_find?_eq_some h2)
          show (if e.2 = "team1_win" then
              heap_update (heap_update hp r1 (fun t => { t with wins := t.wins + 1 })) r2
                (fun t => { t with losses := t.losses + 1 })
            else if e.2 = "team2_win" then
              heap_update (heap_update hp r1 (fun t => { t with losses := t.losses + 1 })) r2
                (fun t => { t with wins := t.wins + 1 })
            else hp).take n = hp.take n
          by_cases hw : e.2 = "team1_win"
          · rw [if_pos hw, heap_update_take _ _ _ _ hr2, heap_update_take _ _ _ _ hr1]
          · rw [if_neg hw]
            by_cases hw2 : e.2 = "team2_win"
            · rw [if_pos hw2, heap_update_take _ _ _ _ hr2, heap_update_take _ _ _ _ hr1]
            · rw [if_neg hw2]

theorem heap_apply_results_take (refs : List Nat) (n : Nat)
    (hrefs : ∀ r ∈ refs, n ≤ r) :
    ∀ (results : List ((String × String) × String)) (hp : List Team),
      (heap_apply_results hp refs results).take n = hp.take n := by
  intro results
  induction results with
  | nil => intro hp; rfl
  | cons e rs ih =>
      intro hp
      show (heap_apply_results (heap_apply_entry hp refs e) refs rs).take n = hp.take n
      rw [ih (heap_apply_entry hp refs e), heap_apply_entry_take hp refs e n hrefs]

theorem range'_from_length_le (s k : Nat) : ∀ r ∈ List.range' s k, s ≤ r := by
  intro r hr
  rw [List.mem_range'] at hr
  obtain ⟨i, _, rfl⟩ := hr
  omega

theorem heap_group_frame (hp : List Team) (refs : List Nat) (tw tl : Nat)
    (mr : List ((String × String) × String)) :
    (heap_simulate_group_with_results hp refs tw tl mr).2.take hp.length = hp := by
  show (heap_apply_results (hp ++ refs.map (heap_get hp))
      (List.range' hp.length refs.length) mr).take hp.length = hp
  rw [heap_apply_results_take (List.range' hp.length refs.length) hp.length
    (range'_from_length_le hp.length refs.length) mr]
  exact List.take_left hp _

theorem heap_advancement_loop_take (coins : Nat → Bool) (n : Nat) :
    ∀ (fuel : Nat) (hp : List Team) (r : Nat) (idx : Nat), n ≤ r →
      (heap_advancement_loop fuel hp r coins idx).1.take n = hp.take n := by
  intro fuel
  induction fuel with
  | zero => intro hp r idx _; rfl
  | succ fuel ih =>
      intro hp r idx hr
      rw [heap_advancement_loop]
      by_cases ha : (heap_get hp r).is_active = true
      · rw [if_pos ha]
        by_cases hc : coins idx = true
        · rw [if_pos hc, ih _ r (idx + 1) hr, heap_update_take _ _ _ _ hr]
        · rw [if_neg hc, ih _ r (idx + 1) hr, heap_update_take _ _ _ _ hr]
      · rw [if_neg ha]

theorem heap_advancement_loop_length (coins : Nat → Bool) :
    ∀ (fuel : Nat) (hp : List Team) (r : Nat) (idx : Nat),
      (heap_advancement_loop fuel hp r coins idx).1.length = hp.length := by
  intro fuel
  induction fuel with
  | zero => intro hp r idx; rfl
  | succ fuel ih =>
      intro hp r idx
      rw [heap_advancement_loop]
      by_cases ha : (heap_get hp r).is_active = true
      · rw [if_pos ha]
        by_cases hc : coins idx = true
        · rw [if_pos hc, ih]
          exact List.length_set hp r _
        · rw [if_neg hc, ih]
          exact List.length_set hp r _
      · rw [if_neg ha]

theorem heap_advancement_trials_take (refs : List Nat) (name : String)
    (coins : Nat → Bool) (n : Nat) :
    ∀ (k : Nat) (hp : List Team) (idx : Nat) (acc : Nat × Nat), n ≤ hp.length →
      (heap_advancement_trials k hp refs name coins idx acc).1.take n = hp.take n := by
  intro k
  induction k with
  | zero => intro hp idx acc _; rfl
  | succ k ih =>
      intro hp idx acc hn
      have hlen : n ≤ (hp ++ refs.map (heap_get hp)).length := by
        rw [List.length_append]
        omega
      show (match heap_find_ref (hp ++ refs.map (heap_get hp))
          (List.range' hp.length refs.length) name with
        | some r =>
            heap_advancement_trials k
              (heap_advancement_loop 6 (hp ++ refs.map (heap_get hp)) r coins idx).1
              refs name coins
              (heap_advancement_loop 6 (hp ++ refs.map (heap_get hp)) r coins idx).2
              (if (heap_get (heap_advancement_loop 6 (hp ++ refs.map (heap_get hp))
                  r coins idx).1 r).is_qualified then (acc.1 + 1, acc.2)
               else (acc.1, acc.2 + 1))
        | none =>
            heap_advancement_trials k (hp ++ refs.map (heap_get hp)) refs name coins idx
              acc).1.take n = hp.take n
      cases hf : heap_find_ref (hp ++ refs.map (heap_get hp))
          (List.range' hp.length refs.length) name with
      | none =>
          rw [ih _ idx acc hlen]
          exact List.take_append_of_le_length hn
      | some r =>
          have hr : hp.length ≤ r :=
            range'_from_length_le hp.length refs.length r (List.mem_of_find?_eq_some hf)
          have hn2 : n ≤ (heap_advancement_loop 6 (hp ++ refs.map (heap_get hp))
              r coins idx).1.length := by
            rw [heap_advancement_loop_length, List.length_append]
            omega
          rw [ih _ _ _ hn2,
            heap_advancement_loop_take coins n 6 _ r idx (le_trans hn hr)]
          exact List.take_append_of_le_length hn

theorem heap_advancement_frame (hp : List Team) (refs : List Nat) (name : String)
    (k : Nat) (coins : Nat → Bool) :
    (heap_simulate_advancement hp refs name k coins).2.take hp.length = hp := by
  have htr : (heap_advancement_trials k hp refs name coins 0 (0, 0)).1.take hp.length = hp := by
    rw [heap_advancement_trials_take refs name coins hp.length k hp 0 (0, 0)
      (le_refl hp.length)]
    exact List.take_length hp
  rw [heap_simulate_advancement]
  split
  · exact List.take_length hp
  · split
    · exact List.take_length hp
    · split
      · exact List.take_length hp
      · exact htr

/-- C8: hypothetical analysis never mutates the caller's live objects.  In
the heap model — where `deepcopy` allocates fresh cells past the end of the
heap and the what-if `+=` updates are in-place cell writes — both
`_simulate_group_with_results` and `simulate_advancement_probability`
return a heap whose prefix of the caller's cells (every team object the
caller's stage references) is exactly the original heap: all mutation lands
on the freshly allocated deep copies. -/
theorem hypothetical_simulation_preserves_caller_heap
    (hp : List Team) (refs : List Nat) (tw tl : Nat)
    (mr : List ((String × String) × String)) (name : String) (k : Nat)
    (coins : Nat → Bool) :
    (heap_simulate_group_with_results hp refs tw tl mr).2.take hp.length = hp ∧
      (heap_simulate_advancement hp refs name k coins).2.take hp.length = hp :=
  ⟨heap_group_frame hp refs tw tl mr, heap_advancement_frame hp refs name k coins⟩

theorem update_first_team_forall2 (n : String) (f : Team → Team)
    (hf : ∀ t, (f t).name = t.name ∧ (f t).opponents_played = t.opponents_played ∧
      (f t).match_history = t.match_history) :
    ∀ ts : List Team,
      List.Forall₂ (fun t t' =>
        (t'.name = t.name ∧ t'.opponents_played = t.opponents_played ∧
          t'.match_history = t.match_history) ∧ (t.name ≠ n → t' = t))
        ts (update_first_team ts n f) := by
  intro ts
  induction ts with
  | nil => exact List.Forall₂.nil
  | cons t rest ih =>
      rw [update_first_team]
      by_cases ht : t.name = n
      · rw [if_pos ht]
        refine List.Forall₂.cons ⟨hf t, fun hne => absurd ht hne⟩ ?_
        exact List.forall₂_same.mpr (fun x _ => ⟨⟨rfl, rfl, rfl⟩, fun _ => rfl⟩)
      · rw [if_neg ht]
        exact List.Forall₂.cons ⟨⟨rfl, rfl, rfl⟩, fun _ => rfl⟩ ih

theorem forall2_team_trans {R S T : Team → Team → Prop}
    (h : ∀ a b c, R a b → S b c → T a c) :
    ∀ {l1 l2 l3 : List Team}, List.Forall₂ R l1 l2 → List.Forall₂ S l2 l3 →
      List.Forall₂ T l1 l3 := by
  intro l1 l2 l3 h12
  induction h12 generalizing l3 with
  | nil =>
      intro h23
      cases h23
      exact List.Forall₂.nil
  | cons hr _ ih =>
      intro h23
      cases h23 with
      | cons hs hsrest => exact List.Forall₂.cons (h _ _ _ hr hs) (ih hsrest)

theorem apply_match_result_entry_forall2 (st : SwissStage)
    (e : (String × String) × String) :
    List.Forall₂ (fun t t' =>
      (t'.name = t.name ∧ t'.opponents_played = t.opponents_played ∧
        t'.match_history = t.match_history) ∧
      (t.name ≠ e.1.1 ∧ t.name ≠ e.1.2 → t' = t))
      st.teams (apply_match_result_entry st e).teams := by
  have hrefl : ∀ ts : List Team,
      List.Forall₂ (fun t t' =>
        (t'.name = t.name ∧ t'.opponents_played = t.opponents_played ∧
          t'.match_history = t.match_history) ∧
        (t.name ≠ e.1.1 ∧ t.name ≠ e.1.2 → t' = t)) ts ts :=
    fun ts => List.forall₂_same.mpr (fun x _ => ⟨⟨rfl, rfl, rfl⟩, fun _ => rfl⟩)
  have hcomp : ∀ (f1 f2 : Team → Team),
      (∀ t, (f1 t).name = t.name ∧ (f1 t).opponents_played = t.opponents_played ∧
        (f1 t).match_history = t.match_history) →
      (∀ t, (f2 t).name = t.name ∧ (f2 t).opponents_played = t.opponents_played ∧
        (f2 t).match_history = t.match_history) →
      List.Forall₂ (fun t t' =>
        (t'.name = t.name ∧ t'.opponents_played = t.opponents_played ∧
          t'.match_history = t.match_history) ∧
        (t.name ≠ e.1.1 ∧ t.name ≠ e.1.2 → t' = t))
        st.teams (update_first_team (update_first_team st.teams e.1.1 f1) e.1.2 f2) := by
    intro f1 f2 hf1 hf2
    refine forall2_team_trans ?_ (update_first_team_forall2 e.1.1 f1 hf1 st.teams)
      (update_first_team_forall2 e.1.2 f2 hf2 (update_first_team st.teams e.1.1 f1))
    intro a b c ⟨⟨hbn, hbo, hbh⟩, hbe⟩ ⟨⟨hcn, hco, hch⟩, hce⟩
    refine ⟨⟨by rw [hcn, hbn], by rw [hco, hbo], by rw [hch, hbh]⟩, ?_⟩
    intro ⟨h1, h2⟩
    have hba : b = a := hbe h1
    have hcb : c = b := hce (by rw [hba]; exact h2)
    rw [hcb, hba]
  unfold apply_match_result_entry
  cases h1 : st.get_team_by_name e.1.1 with
  | none => cases h2 : st.get_team_by_name e.1.2 <;> exact hrefl st.teams
  | some t1 =>
      cases h2 : st.get_team_by_name e.1.2 with
      | none => exact hrefl st.teams
      | some t2 =>
          show List.Forall₂ _ st.teams
            (if e.2 = "team1_win" then
              { st with teams := (update_first_team (update_first_team st.teams e.1.1
                  (fun t => { t with wins := t.wins + 1 })) e.1.2
                  (fun t => { t with losses := t.losses + 1 })) }
            else if e.2 = "team2_win" then
              { st with teams := (update_first_team (update_first_team st.teams e.1.1
                  (fun t => { t with losses := t.losses + 1 })) e.1.2
                  (fun t => { t with wins := t.wins + 1 })) }
            else st).teams
          by_cases hw : e.2 = "team1_win"
          · rw [if_pos hw]
            exact hcomp _ _ (fun t => ⟨rfl, rfl, rfl⟩) (fun t => ⟨rfl, rfl, rfl⟩)
          · rw [if_neg hw]
            by_cases hw2 : e.2 = "team2_win"
            · rw [if_pos hw2]
              exact hcomp _ _ (fun t => ⟨rfl, rfl, rfl⟩) (fun t => ⟨rfl, rfl, rfl⟩)
            · rw [if_neg hw2]
              exact hrefl st.teams

theorem apply_match_results_forall2 (rs : List ((String × String) × String)) :
    ∀ st : SwissStage,
      List.Forall₂ (fun t t' =>
        (t'.name = t.name ∧ t'.opponents_played = t.opponents_played ∧
          t'.match_history = t.match_history) ∧
        (name_in_results t.name rs = false → t' = t))
        st.teams (apply_match_results st rs).teams := by
  induction rs with
  | nil =>
      intro st
      exact List.forall₂_same.mpr (fun x _ => ⟨⟨rfl, rfl, rfl⟩, fun _ => rfl⟩)
  | cons e rs ih =>
      intro st
      show List.Forall₂ _ st.teams
        (apply_match_results (apply_match_result_entry st e) rs).teams
      refine forall2_team_trans ?_ (apply_match_result_entry_forall2 st e)
        (ih (apply_match_result_entry st e))
      intro a b c ⟨⟨hbn, hbo, hbh⟩, hbe⟩ ⟨⟨hcn, hco, hch⟩, hce⟩
      refine ⟨⟨by rw [hcn, hbn], by rw [hco, hbo], by rw [hch, hbh]⟩, ?_⟩
      intro hnm
      have hsplit : (decide (e.1.1 = a.name) || decide (e.1.2 = a.name)) = false ∧
          name_in_results a.name rs = false := by
        rw [name_in_results, List.any_cons] at hnm
        exact Bool.or_eq_false_iff.mp hnm
      have hne : a.name ≠ e.1.1 ∧ a.name ≠ e.1.2 := by
        have := Bool.or_eq_false_iff.mp hsplit.1
        constructor
        · intro hx
          have := this.1
          simp [hx] at this
        · intro hx
          have := this.2
          simp [hx] at this
      have hba : b = a := hbe hne
      have hcb : c = b := hce (by rw [hba]; exact hsplit.2)
      rw [hcb, hba]

/-- C10: `_simulate_group_with_results` changes only win/loss counters on
the simulated copy: for every result mapping, every team keeps its name,
`opponents_played` and `match_history` (so no simulated match is recorded as
played), every team not named in the mapping is entirely unchanged, and
`can_play_against` between any two positions is unchanged — the simulated
opponents stay mutually pairable by the pairing generator. -/
theorem simulated_results_change_only_counters (st : SwissStage)
    (rs : List ((String × String) × String)) :
    List.Forall₂ (fun t t' =>
      (t'.name = t.name ∧ t'.opponents_played = t.opponents_played ∧
        t'.match_history = t.match_history) ∧
      (name_in_results t.name rs = false → t' = t))
      st.teams (apply_match_results st rs).teams ∧
    ∀ p ∈ st.teams.zip (apply_match_results st rs).teams,
      ∀ q ∈ st.teams.zip (apply_match_results st rs).teams,
        p.2.can_play_against q.2 = p.1.can_play_against q.1 := by
  have hmain := apply_match_results_forall2 rs st
  refine ⟨hmain, ?_⟩
  intro p hp q hq
  rcases p with ⟨p1, p2⟩
  rcases q with ⟨q1, q2⟩
  obtain ⟨⟨hn1, ho1, _⟩, _⟩ := (List.forall₂_iff_zip.mp hmain).2 hp
  obtain ⟨⟨hn2, _, _⟩, _⟩ := (List.forall₂_iff_zip.mp hmain).2 hq
  unfold Team.can_play_against
  rw [hn1, hn2, ho1]

theorem simulated_results_change_only_counters_witness :
    List.Forall₂ (fun t t' =>
      (t'.name = t.name ∧ t'.opponents_played = t.opponents_played ∧
        t'.match_history = t.match_history) ∧
      (name_in_results t.name [(("D", "E"), "team1_win")] = false → t' = t))
      stage5.teams (apply_match_results stage5 [(("D", "E"), "team1_win")]).teams ∧
    ∀ p ∈ stage5.teams.zip (apply_match_results stage5 [(("D", "E"), "team1_win")]).teams,
      ∀ q ∈ stage5.teams.zip (apply_match_results stage5 [(("D", "E"), "team1_win")]).teams,
        p.2.can_play_against q.2 = p.1.can_play_against q.1 :=
  simulated_results_change_only_counters stage5 [(("D", "E"), "team1_win")]

end Swiss
